import Mathlib

/-
Verification of the `match_err` crate (src/src/lib.rs): four macro-rules
expansion forms — `match_err!`, `match_if_err!`, `assert_error!`,
`assert_if_error!` — shallowly embedded as Lean functions.

Modelling conventions, read off the source:

* An erased error (`anyhow::Error` in the examples) is used by the macros
  through exactly one capability: `$any.downcast_ref::<$ty>()`, which yields
  `Some(&e)` when the dynamic type is `$ty` and `None` otherwise.  We model
  an erased value, relative to the enquired type `E`, as the structure
  `AnyErr E` carrying the answer of that single query.
* A variant arm `Variant(i1, ..., ik) => arm` of the arm block denotes the
  partial function sending a value of `E` whose variant is `Variant` to the
  arm expression with the binders `i1 ... ik` bound to the payload fields,
  and any other value to no result; an arm block is a list of such partial
  functions, matched in source order (Rust `match` semantics of the
  expansion).  The trailing `_ => $default` of the expansion is the extra
  `default` argument.
* `Result<T, E>` is `Except err ok`: `Except.error` is `Err`, `Except.ok`
  is `Ok`.
* `assert!(true)` / `assert!(false, msg...)` outcomes are the type
  `AssertResult`: `pass`, or `fail m` where `m : Option String` is the
  message argument given to `assert!` (`none` when the bare `assert!(false)`
  default message applies).
* Claims about evaluation counts (single evaluation of the scrutinee,
  exactly one arm, evaluation of the exemplar payload) are stated on
  effectful variants of the same expansions: an expression is a state
  transformer `s -> value × s`, and the expansion sequences the transformers
  exactly where the expanded Rust code evaluates the corresponding
  expressions.  Instantiating the state with a counter makes the counting
  side effect of the spec observable.
-/

set_option autoImplicit false

namespace MatchErr

/-- The erased-error value, relative to the concrete type `E` it is enquired
about: `downcast_ref` is the result of `$any.downcast_ref::<E>()`, the only
capability the macros use. -/
structure AnyErr (E : Type) where
  downcast_ref : Option E
deriving DecidableEq, Repr

/-- Outcome of an assertion form: `pass` for `assert!(true)`, `fail m` for
`assert!(false, m...)` where `m = none` means no message argument was
supplied (the default panic message). -/
inductive AssertResult where
  | pass : AssertResult
  | fail : Option String → AssertResult
deriving DecidableEq, Repr

/-- The arm list of the expanded `match e { arm1, ..., armN, _ => default }`:
arms are tried in source order, the first whose variant pattern matches
produces the result, and a fall-through hits the default. -/
def matchArms {E α : Type} (e : E) : List (E → Option α) → α → α
  | [], d => d
  | arm :: rest, d =>
    match arm e with
    | some v => v
    | none => matchArms e rest d

/-- `match_err!($any, $ty, { arms, _ => $default })`, first rule of the
macro: `if let Some(e) = $any.downcast_ref::<$ty>() { match e { arms, _ =>
default } } else { default }`. -/
def match_err {E α : Type} (any : AnyErr E) (arms : List (E → Option α)) (d : α) : α :=
  match any.downcast_ref with
  | some e => matchArms e arms d
  | none => d

/-- `match_err!($any, $ty, { arms })`, second rule of the macro: the arm
block without a `_ =>` clause delegates to the first rule with `_ => {}`
appended, whose arm value is the unit value. -/
def match_err_elided {E : Type} (any : AnyErr E) (arms : List (E → Option Unit)) : Unit :=
  match_err any arms ()

/-- `match_if_err!($any, $ty, { arms, _ => $default })`, first rule:
`if let Err(e) = $any { match_err!(e, $ty, { arms, _ => default }) } else
{ default }`. -/
def match_if_err {E ρ α : Type} (res : Except (AnyErr E) ρ) (arms : List (E → Option α)) (d : α) : α :=
  match res with
  | .error e => match_err e arms d
  | .ok _ => d

/-- `match_if_err!($any, $ty, { arms })`, second rule: delegates to the
first rule with `_ => {}` appended. -/
def match_if_err_elided {E ρ : Type} (res : Except (AnyErr E) ρ) (arms : List (E → Option Unit)) : Unit :=
  match_if_err res arms ()

/-- `assert_error!($var, $ty, $variant(($inner))?, args...)`:
`match $var.downcast_ref::<$ty>() { Some(e) if e == &exemplar =>
assert!(true), _ => assert!(false, args...) }`, where `expected` is the
freshly constructed exemplar `<$ty>::$variant($inner)` and `msg` the
optional user message.  Structural equality of the derived `PartialEq` is
propositional equality on the model. -/
def assert_error {E : Type} [DecidableEq E] (var : AnyErr E) (expected : E) (msg : Option String) : AssertResult :=
  match var.downcast_ref with
  | some e => if e = expected then .pass else .fail msg
  | none => .fail msg

/-- `assert_if_error!($var, $ty, $variant(($inner))?, args...)`:
`if let Err(err) = $var { assert_error!(err, ...) } else { assert!(false,
"not an error") }`. -/
def assert_if_error {E ρ : Type} [DecidableEq E] (var : Except (AnyErr E) ρ) (expected : E) (msg : Option String) : AssertResult :=
  match var with
  | .error err => assert_error err expected msg
  | .ok _ => .fail (some "not an error")

/-- Specification-side selector: the value of the first arm of the block
whose variant pattern matches `e`, or `none` when no arm names the variant
of `e`.  Stated independently of the expansion and compared with it in the
dispatch theorem. -/
def firstMatch {E α : Type} (arms : List (E → Option α)) (e : E) : Option α :=
  match arms with
  | [] => none
  | arm :: rest =>
    match arm e with
    | some v => some v
    | none => firstMatch rest e

/-- Effectful arm list: each arm expression is a state transformer, run only
when its pattern is selected; fall-through runs the default transformer.
This is where the expanded `match` evaluates exactly the chosen arm. -/
def matchArmsM {σ E α : Type} (e : E) : List (E → Option (σ → α × σ)) → (σ → α × σ) → σ → α × σ
  | [], d, s => d s
  | arm :: rest, d, s =>
    match arm e with
    | some act => act s
    | none => matchArmsM e rest d s

/-- Effectful `match_err!`: the scrutinee transformer `any` is run once up
front (the expansion mentions `$any` exactly once), then the expansion
branches on the downcast answer, running either the selected arm or the
default transformer. -/
def match_errM {σ E α : Type} (any : σ → AnyErr E × σ) (arms : List (E → Option (σ → α × σ))) (d : σ → α × σ) : σ → α × σ :=
  fun s =>
    match any s with
    | (a, s1) =>
      match a.downcast_ref with
      | some e => matchArmsM e arms d s1
      | none => d s1

/-- Effectful `match_if_err!`: the result transformer runs once; on `Err(e)`
the already evaluated payload `e` is fed to `match_err!` as a pure
expression, on `Ok(_)` the default transformer runs. -/
def match_if_errM {σ E ρ α : Type} (res : σ → Except (AnyErr E) ρ × σ) (arms : List (E → Option (σ → α × σ))) (d : σ → α × σ) : σ → α × σ :=
  fun s =>
    match res s with
    | (r, s1) =>
      match r with
      | .error e => match_errM (fun t => (e, t)) arms d s1
      | .ok _ => d s1

/-- Lift a pure arm to an effect-free transformer arm. -/
def pureArm {σ E α : Type} (arm : E → Option α) : E → Option (σ → α × σ) :=
  fun e => (arm e).map (fun v => fun s => (v, s))

/-- Instrument a pure arm so that evaluating its arm expression bumps the
counter by one. -/
def instrArm {E α : Type} (arm : E → Option α) : E → Option (Nat → α × Nat) :=
  fun e => (arm e).map (fun v => fun n => (v, n + 1))

/-- Effectful `assert_error!`: the exemplar `<$ty>::$variant($inner)` sits
in the guard of the `Some(e)` match arm, so its transformer `mkExpected`
runs exactly when the downcast answer is `Some`, once, and never otherwise. -/
def assert_errorM {E : Type} [DecidableEq E] (var : AnyErr E) (mkExpected : Nat → E × Nat) (msg : Option String) : Nat → AssertResult × Nat :=
  fun s =>
    match var.downcast_ref with
    | some e =>
      match mkExpected s with
      | (x, s1) => if e = x then (.pass, s1) else (.fail msg, s1)
    | none => (.fail msg, s)

/-- Effectful `assert_if_error!`: on `Err(err)` it delegates to
`assert_error!` (which may evaluate the exemplar), on `Ok(_)` it fails at
once with "not an error" and the exemplar transformer never runs. -/
def assert_if_errorM {E ρ : Type} [DecidableEq E] (var : Except (AnyErr E) ρ) (mkExpected : Nat → E × Nat) (msg : Option String) : Nat → AssertResult × Nat :=
  fun s =>
    match var with
    | .error err => assert_errorM err mkExpected msg s
    | .ok _ => (.fail (some "not an error"), s)

/-- The enumerated error type of the documentation examples of the crate:
`enum Error { NotFound, Custom(String) }`. -/
inductive Error where
  | NotFound : Error
  | Custom : String → Error
deriving DecidableEq, Repr

/- Helper lemmas shared by the claim theorems. -/

/-- If `firstMatch` selects the value `v`, the expanded match produces `v`. -/
theorem matchArms_of_firstMatch_some {E α : Type} {arms : List (E → Option α)} {e : E} {v : α} (d : α) (h : firstMatch arms e = some v) :
    matchArms e arms d = v := by
  induction arms with
  | nil => simp [firstMatch] at h
  | cons arm rest ih =>
    simp only [firstMatch] at h
    simp only [matchArms]
    cases harm : arm e with
    | some w => simp [harm] at h; simp [h]
    | none => simp [harm] at h; exact ih h

/-- If no arm of the block matches, the expanded match falls through to the
default. -/
theorem matchArms_of_firstMatch_none {E α : Type} {arms : List (E → Option α)} {e : E} (d : α) (h : firstMatch arms e = none) :
    matchArms e arms d = d := by
  induction arms with
  | nil => rfl
  | cons arm rest ih =>
    simp only [firstMatch] at h
    simp only [matchArms]
    cases harm : arm e with
    | some w => simp [harm] at h
    | none => simp [harm] at h; exact ih h

/-- Effect-free arms and default leave the counter unchanged. -/
theorem matchArmsM_pure_snd {σ E α : Type} (e : E) (arms : List (E → Option α)) (d : α) (s : σ) :
    (matchArmsM e (arms.map pureArm) (fun t => (d, t)) s).2 = s := by
  induction arms with
  | nil => rfl
  | cons arm rest ih =>
    simp only [List.map, matchArmsM, pureArm]
    cases harm : arm e with
    | some w => simp [harm]
    | none => simp [harm]; exact ih

/-- With every arm and the default instrumented to bump the counter once,
the expanded match bumps the counter exactly once. -/
theorem matchArmsM_instr_snd {E α : Type} (e : E) (arms : List (E → Option α)) (d : α) (n : Nat) :
    (matchArmsM e (arms.map instrArm) (fun t => (d, t + 1)) n).2 = n + 1 := by
  induction arms with
  | nil => rfl
  | cons arm rest ih =>
    simp only [List.map, matchArmsM, instrArm]
    cases harm : arm e with
    | some w => simp [harm]
    | none => simp [harm]; exact ih

/-- Counting form of the one-arm property for `match_err!`, shared with the
adapter form. -/
theorem match_errM_instr_count {E α : Type} (any : AnyErr E) (arms : List (E → Option α)) (d : α) (n : Nat) :
    (match_errM (fun t => (any, t)) (arms.map instrArm) (fun t => (d, t + 1)) n).2 = n + 1 := by
  obtain ⟨oc⟩ := any
  cases oc with
  | some e => exact matchArmsM_instr_snd e arms d n
  | none => rfl

/-- C1: for every invocation of `match_err!` with an arm block and default:
when the downcast to `E` succeeds and the first matching arm of the block
yields `v` (the arm expression evaluated with the payload binders bound to
the fields of the recovered value), the result is `v`; when the downcast
succeeds but no arm names the variant, the result is the default; when the
downcast fails, the result is the default. -/
theorem C1_match_err_dispatch {E α : Type} (any : AnyErr E) (arms : List (E → Option α)) (d : α) :
    (∀ e v, any.downcast_ref = some e → firstMatch arms e = some v → match_err any arms d = v) ∧
    (∀ e, any.downcast_ref = some e → firstMatch arms e = none → match_err any arms d = d) ∧
    (any.downcast_ref = none → match_err any arms d = d) := by
  refine ⟨?_, ?_, ?_⟩
  · intro e v he hf
    simp [match_err, he, matchArms_of_firstMatch_some d hf]
  · intro e he hf
    simp [match_err, he, matchArms_of_firstMatch_none d hf]
  · intro h
    simp [match_err, h]

/-- Witness for C1: the scenario of the spec with `Error.Custom "xy")`
selecting the `Custom(m) => m.length` arm, the binder `m` referring to the
payload of the recovered value. -/
theorem C1_match_err_dispatch_witness :
    match_err (AnyErr.mk (some (Error.Custom "xy")))
      [fun e => match e with | Error.NotFound => some 1 | _ => none,
        fun e => match e with | Error.Custom m => some (String.length m) | _ => none]
      0 = 2 :=
  (C1_match_err_dispatch _ _ _).1 (Error.Custom "xy") 2 rfl rfl

/-- C2: `match_if_err!` applied to `Ok(_)` evaluates the default arm, and
applied to `Err(x)` returns the value of `match_err!` on `x` with the same
arm block. -/
theorem C2_match_if_err_adapter {E ρ α : Type} (x : ρ) (e : AnyErr E) (arms : List (E → Option α)) (d : α) :
    match_if_err (Except.ok x : Except (AnyErr E) ρ) arms d = d ∧
    match_if_err (Except.error e : Except (AnyErr E) ρ) arms d = match_err e arms d :=
  ⟨rfl, rfl⟩

/-- Witness for C2 at a concrete result and arm block. -/
theorem C2_match_if_err_adapter_witness :
    match_if_err (Except.ok () : Except (AnyErr Error) Unit)
      [fun e => match e with | Error.NotFound => some 1 | _ => none] 2 = 2 :=
  (C2_match_if_err_adapter () (AnyErr.mk none) _ _).1

/-- C3: `assert_error!` passes exactly when the erased value downcasts to
`E` and the recovered value is structurally equal to the exemplar
`E::Variant(payload)`; in every other case it fails. -/
theorem C3_assert_error_pass_iff {E : Type} [DecidableEq E] (any : AnyErr E) (expected : E) (msg : Option String) :
    assert_error any expected msg = AssertResult.pass ↔ any.downcast_ref = some expected := by
  unfold assert_error
  cases h : any.downcast_ref with
  | none => simp
  | some e => by_cases he : e = expected <;> simp [he]

/-- Witness for C3: the passing scenario S5 of the spec. -/
theorem C3_assert_error_pass_iff_witness :
    assert_error (AnyErr.mk (some (Error.Custom "internal"))) (Error.Custom "internal") none = AssertResult.pass :=
  (C3_assert_error_pass_iff _ _ _).mpr rfl

/-- C4 counterexample: `assert_if_error!` on a success result with a user
message supplied fails with the fixed message "not an error", not with the
user message, refuting the claim that every failure carries the user
message. -/
theorem C4_counterexample :
    assert_if_error (Except.ok () : Except (AnyErr Error) Unit) Error.NotFound (some "boom") =
      AssertResult.fail (some "not an error") ∧
    assert_if_error (Except.ok () : Except (AnyErr Error) Unit) Error.NotFound (some "boom") ≠
      AssertResult.fail (some "boom") := by
  decide

/-- C4 amended: every failure of `assert_error!` — wrong variant, wrong
payload, or wrong concrete type — carries the user message when one is
supplied, and `assert_if_error!` on `Err(x)` delegates to `assert_error!`
with the same message; but `assert_if_error!` on a success result fails
with the fixed message "not an error", regardless of any user message. -/
theorem C4_amended_user_message {E ρ : Type} [DecidableEq E] (any x : AnyErr E) (u : ρ) (expected : E) (m : String) (msg : Option String) :
    (assert_error any expected (some m) = AssertResult.pass ∨
      assert_error any expected (some m) = AssertResult.fail (some m)) ∧
    assert_if_error (Except.error x : Except (AnyErr E) ρ) expected (some m) = assert_error x expected (some m) ∧
    assert_if_error (Except.ok u : Except (AnyErr E) ρ) expected msg = AssertResult.fail (some "not an error") := by
  refine ⟨?_, rfl, rfl⟩
  unfold assert_error
  cases any.downcast_ref with
  | none => exact Or.inr rfl
  | some e =>
    by_cases he : e = expected
    · exact Or.inl (by simp [he])
    · exact Or.inr (by simp [he])

/-- Witness for C4 amended: a wrong-payload failure carries the supplied
message. -/
theorem C4_amended_user_message_witness :
    assert_error (AnyErr.mk (some (Error.Custom "other"))) (Error.Custom "internal") (some "boom") =
      AssertResult.fail (some "boom") := by
  have h := (C4_amended_user_message (E := Error) (ρ := Unit)
    (AnyErr.mk (some (Error.Custom "other"))) (AnyErr.mk none) () (Error.Custom "internal") "boom" none).1
  rcases h with h | h
  · exact absurd h (by decide)
  · exact h

/-- C5: `assert_if_error!` on `Err(x)` behaves as `assert_error!` on `x`
with the same expected variant and message, and on any success value fails
the assertion with the message "not an error". -/
theorem C5_assert_if_error_adapter {E ρ : Type} [DecidableEq E] (x : AnyErr E) (u : ρ) (expected : E) (msg : Option String) :
    assert_if_error (Except.error x : Except (AnyErr E) ρ) expected msg = assert_error x expected msg ∧
    assert_if_error (Except.ok u : Except (AnyErr E) ρ) expected msg = AssertResult.fail (some "not an error") :=
  ⟨rfl, rfl⟩

/-- Witness for C5: scenario S6 of the spec. -/
theorem C5_assert_if_error_adapter_witness :
    assert_if_error (Except.ok () : Except (AnyErr Error) Unit) Error.NotFound none =
      AssertResult.fail (some "not an error") :=
  (C5_assert_if_error_adapter (AnyErr.mk none) () Error.NotFound none).2

/-- C6: the arm block without a `_ =>` clause is observationally the arm
block with `_ => ()` appended, for both `match_err!` and `match_if_err!`. -/
theorem C6_default_elision {E ρ : Type} (any : AnyErr E) (res : Except (AnyErr E) ρ) (arms : List (E → Option Unit)) :
    match_err_elided any arms = match_err any arms () ∧
    match_if_err_elided res arms = match_if_err res arms () :=
  ⟨rfl, rfl⟩

/-- Witness for C6 at a concrete erased error and arm block. -/
theorem C6_default_elision_witness :
    match_err_elided (AnyErr.mk (some Error.NotFound))
      [fun e => match e with | Error.NotFound => some () | _ => none] =
      match_err (AnyErr.mk (some Error.NotFound))
        [fun e => match e with | Error.NotFound => some () | _ => none] () :=
  (C6_default_elision (AnyErr.mk (some Error.NotFound)) (Except.ok () : Except (AnyErr Error) Unit) _).1

/-- C7: the scrutinee of `match_err!` is evaluated exactly once, observed
by a counting side effect: with the input transformer bumping a counter on
each evaluation and all arms and the default effect-free, the counter ends
exactly one above where it started, for every erased value (either downcast
outcome), every arm block and every default. -/
theorem C7_single_evaluation {E α : Type} (any : AnyErr E) (arms : List (E → Option α)) (d : α) (n : Nat) :
    (match_errM (fun t => (any, t + 1)) (arms.map pureArm) (fun t => (d, t)) n).2 = n + 1 := by
  obtain ⟨oc⟩ := any
  cases oc with
  | some e => exact matchArmsM_pure_snd e arms d (n + 1)
  | none => rfl

/-- C8: with every arm expression and the default instrumented to bump a
counter once, any invocation of `match_err!` or `match_if_err!` bumps the
counter exactly once — exactly one arm is evaluated and the construct never
fails — and the pure result is always either the value of the first
matching arm or the default. -/
theorem C8_exactly_one_arm {E ρ α : Type} (any : AnyErr E) (res : Except (AnyErr E) ρ) (arms : List (E → Option α)) (d : α) (n : Nat) :
    (match_errM (fun t => (any, t)) (arms.map instrArm) (fun t => (d, t + 1)) n).2 = n + 1 ∧
    (match_if_errM (fun t => (res, t)) (arms.map instrArm) (fun t => (d, t + 1)) n).2 = n + 1 ∧
    (match_err any arms d = d ∨
      ∃ e v, any.downcast_ref = some e ∧ firstMatch arms e = some v ∧ match_err any arms d = v) := by
  refine ⟨match_errM_instr_count any arms d n, ?_, ?_⟩
  · cases res with
    | error e => exact match_errM_instr_count e arms d n
    | ok u => rfl
  · cases h : any.downcast_ref with
    | none => exact Or.inl (by simp [match_err, h])
    | some e =>
      cases hf : firstMatch arms e with
      | none => exact Or.inl (by simp [match_err, h, matchArms_of_firstMatch_none d hf])
      | some v =>
        exact Or.inr ⟨e, v, rfl, hf, by simp [match_err, h, matchArms_of_firstMatch_some d hf]⟩

/-- C9: an empty arm block (no variant arms, no default clause) is
permitted and always takes the default path: with no arms, the default
transformer runs right after the single evaluation of the input, whichever
way the downcast goes; with the elided unit default this produces the unit
value. -/
theorem C9_empty_arms {σ E α : Type} (anyM : σ → AnyErr E × σ) (a : AnyErr E) (d : σ → α × σ) (s : σ) :
    match_errM anyM ([] : List (E → Option (σ → α × σ))) d s = d (anyM s).2 ∧
    match_errM anyM ([] : List (E → Option (σ → Unit × σ))) (fun t => ((), t)) s = ((), (anyM s).2) ∧
    match_err_elided a ([] : List (E → Option Unit)) = () := by
  refine ⟨?_, ?_, rfl⟩
  · unfold match_errM
    rcases hs : anyM s with ⟨x, s1⟩
    obtain ⟨oc⟩ := x
    cases oc <;> rfl
  · unfold match_errM
    rcases hs : anyM s with ⟨x, s1⟩
    obtain ⟨oc⟩ := x
    cases oc <;> rfl

/-- C10: the exemplar payload of `assert_error!` sits in the guard of the
`Some(e)` arm of the expansion: with the exemplar transformer bumping a
counter on each evaluation, the counter ends one above its start when the
downcast succeeds, and is untouched when the concrete type is not `E` or
when `assert_if_error!` receives a success result. -/
theorem C10_exemplar_once {E ρ : Type} [DecidableEq E] (e v : E) (u : ρ) (msg : Option String) (n : Nat) :
    (assert_errorM (AnyErr.mk (some e)) (fun t => (v, t + 1)) msg n).2 = n + 1 ∧
    (assert_errorM (AnyErr.mk (none : Option E)) (fun t => (v, t + 1)) msg n).2 = n ∧
    (assert_if_errorM (Except.ok u : Except (AnyErr E) ρ) (fun t => (v, t + 1)) msg n).2 = n ∧
    (assert_if_errorM (Except.error (AnyErr.mk (some e)) : Except (AnyErr E) ρ) (fun t => (v, t + 1)) msg n).2 = n + 1 := by
  refine ⟨?_, rfl, rfl, ?_⟩ <;>
    by_cases he : e = v <;> simp [assert_errorM, assert_if_errorM, he]

end MatchErr
